import Mathlib

/-!
Shallow embedding of `cirq/google/engine/calibration.py` (class `Calibration`):
the calibration-report parser (`_compute_metric_dict`), the dictionary-like
index (`__getitem__`, `__iter__`, `__len__`) and the heatmap projector
(`heatmap`).  Raw payload records become Lean structures; the insertion-ordered
Python `dict`/`defaultdict` becomes an association list with in-place update;
Python exceptions become `Except` error values, named after the spec's error
taxonomy (`DuplicateGlobalMetric`, `InvalidKeyKind`, `MetricNotFound`,
`HeatmapShapeError`).  Metric values keep their dynamic type as a type
parameter `V`.
-/

set_option autoImplicit false

namespace Calib

/-- Decidable equality of `Except` results, so that concrete runs of the
embedded functions can be checked by `decide`. -/
instance instDecEqExcept {ε α : Type} [DecidableEq ε] [DecidableEq α] :
    DecidableEq (Except ε α) := fun x y =>
  match x, y with
  | .ok a, .ok b =>
    if h : a = b then .isTrue (by rw [h]) else .isFalse (fun hc => h (Except.ok.inj hc))
  | .error a, .error b =>
    if h : a = b then .isTrue (by rw [h]) else .isFalse (fun hc => h (Except.error.inj hc))
  | .ok _, .error _ => .isFalse (fun hc => Except.noConfusion hc)
  | .error _, .ok _ => .isFalse (fun hc => Except.noConfusion hc)

/-- Digit-string parsing used to model Python's `int()` on a non-negative
decimal string: `none` on the empty string or any non-digit character. -/
def parseNatDigits (s : List Char) : Option Nat :=
  match s with
  | [] => none
  | _ =>
    s.foldl
      (fun acc c =>
        acc.bind (fun n => if c.isDigit then some (n * 10 + (c.toNat - '0'.toNat)) else none))
      (some 0)

/-- Python `int(x)` applied to a string: an optional leading minus sign
followed by decimal digits; `none` models the `ValueError` raised otherwise. -/
def parseIntStr (s : String) : Option Int :=
  match s.data with
  | '-' :: rest => (parseNatDigits rest).map (fun n => -(n : Int))
  | l => (parseNatDigits l).map (fun n => (n : Int))

/-- A 2-D grid coordinate, the opaque qubit identifier of the spec
(`cirq.GridQubit`). -/
structure GridQubit where
  row : Nat
  col : Nat
deriving DecidableEq, Repr

/-- Splitting a character list on the underscore separator (the semantics of
`String.splitOn "_"`, written structurally). -/
def splitOnUnderscore : List Char → List (List Char)
  | [] => [[]]
  | c :: rest =>
    if c = '_' then [] :: splitOnUnderscore rest
    else
      match splitOnUnderscore rest with
      | [] => [[c]]
      | h :: t => (c :: h) :: t

/-- Modelled from the spec: the external qubit-identifier parser
`parse(id: string) -> Qubit` (`GridQubit.from_proto_id`, whose source is not
part of this excerpt).  It turns a proto-style string `"<row>_<col>"` into a
2-D grid coordinate and fails with a parse error (`none`) on malformed
input. -/
def GridQubit.from_proto_id (s : String) : Option GridQubit :=
  match splitOnUnderscore s.data with
  | [r, c] =>
    match parseNatDigits r, parseNatDigits c with
    | some rn, some cn => some ⟨rn, cn⟩
    | _, _ => none
  | _ => none

/-- One raw metric record of the payload: a `name`, a list of `values` (each a
tagged-scalar mapping, modelled as an association list from type tag to
scalar), and an optional list of target strings (`none` models a record with
no `targets` field). -/
structure Metric (V : Type) where
  name : String
  values : List (List (String × V))
  targets : Option (List String)
deriving DecidableEq, Repr

/-- The `timestampMs` field of the payload: an integer, or a string to be
converted by `int()`. -/
inductive TimestampVal where
  | int (n : Int)
  | str (s : String)
deriving DecidableEq, Repr

/-- The raw calibration payload handed to `Calibration.__init__`. -/
structure CalibrationPayload (V : Type) where
  timestampMs : TimestampVal
  metrics : List (Metric V)
deriving DecidableEq, Repr

/-- One metric's bucket: an insertion-ordered mapping from qubit tuples to
value lists, modelled as an association list. -/
abbrev Bucket (V : Type) := List (List GridQubit × List V)

/-- The whole metric dictionary: insertion-ordered mapping from metric name to
bucket. -/
abbrev MetricDict (V : Type) := List (String × Bucket V)

/-- Lookup in an insertion-ordered association list (Python `d[k]` /
`k in d`). -/
def lookupA {α β : Type} [DecidableEq α] : List (α × β) → α → Option β
  | [], _ => none
  | (k, v) :: rest, a => if k = a then some v else lookupA rest a

/-- Python dict assignment `d[k] = v`: overwrite in place if the key is
present (keeping its position), otherwise append at the end. -/
def updA {α β : Type} [DecidableEq α] : List (α × β) → α → β → List (α × β)
  | [], a, b => [(a, b)]
  | (k, v) :: rest, a, b => if k = a then (k, b) :: rest else (k, v) :: updA rest a b

/-- The Python statement `results[name][qubits] = flat_values` on a
`defaultdict(dict)`: the bucket for `name` is created empty at the end if
absent, then entry `k` of that bucket is assigned `v`. -/
def setMetric {V : Type} : MetricDict V → String → List GridQubit → List V → MetricDict V
  | [], n, k, v => [(n, [(k, v)])]
  | (n', b) :: rest, n, k, v =>
    if n' = n then (n', updA b k v) :: rest else (n', b) :: setMetric rest n k v

/-- Flattening `[v[t] for v in values for t in v]`: the scalars of every
tagged entry in order, type tags discarded. -/
def flatValues {V : Type} (values : List (List (String × V))) : List V :=
  values.flatMap (fun v => v.map Prod.snd)

/-- The target normalization `t[1:] if t.startswith('q') else t`. -/
def stripLeadingQ (t : String) : String :=
  match t.data with
  | 'q' :: rest => String.mk rest
  | _ => t

/-- Errors raised during construction: the `DuplicateGlobalMetric` assertion,
a qubit-id parse failure propagated from the external parser, or a bad
`timestampMs`. -/
inductive CalError where
  | duplicateGlobalMetric (name : String)
  | qubitParseError (target : String)
  | badTimestamp
deriving DecidableEq, Repr

/-- Parsing one target string: strip one optional leading `q`, then hand the
remainder to the external qubit-identifier parser. -/
def parseTarget (t : String) : Option GridQubit :=
  GridQubit.from_proto_id (stripLeadingQ t)

/-- The tuple comprehension `tuple(GridQubit.from_proto_id(t) for t in
targets)`: parse every target in order, propagating the first parse failure. -/
def parseTargets : List String → Except CalError (List GridQubit)
  | [] => .ok []
  | t :: rest =>
    match parseTarget t with
    | some q => (parseTargets rest).map (fun qs => q :: qs)
    | none => .error (.qubitParseError t)

/-- The body of the `for metric in metrics` loop of `_compute_metric_dict`
for one record: flatten the values; if `targets` is present, parse them and
assign the bucket entry; otherwise assert the bucket is empty (else
`DuplicateGlobalMetric`) and assign under the empty tuple. -/
def insertMetric {V : Type} (d : MetricDict V) (m : Metric V) :
    Except CalError (MetricDict V) :=
  let fv := flatValues m.values
  match m.targets with
  | some ts =>
    match parseTargets ts with
    | .ok qs => .ok (setMetric d m.name qs fv)
    | .error e => .error e
  | none =>
    match lookupA d m.name with
    | some b =>
      if b.isEmpty then .ok (setMetric d m.name [] fv)
      else .error (.duplicateGlobalMetric m.name)
    | none => .ok (setMetric d m.name [] fv)

/-- The loop of `_compute_metric_dict`, started from an intermediate
dictionary `d`. -/
def computeFrom {V : Type} (d : MetricDict V) : List (Metric V) → Except CalError (MetricDict V)
  | [] => .ok d
  | m :: rest =>
    match insertMetric d m with
    | .ok d' => computeFrom d' rest
    | .error e => .error e

/-- `Calibration._compute_metric_dict`: fold every raw record into an
initially empty `defaultdict(dict)`. -/
def compute_metric_dict {V : Type} (metrics : List (Metric V)) :
    Except CalError (MetricDict V) :=
  computeFrom [] metrics

/-- The constructed `Calibration` object: a `timestamp` and the internal
metric dictionary. -/
structure Calibration (V : Type) where
  timestamp : Int
  metric_dict : MetricDict V
deriving DecidableEq, Repr

/-- Python `int(x)` on the `timestampMs` field. -/
def pyInt : TimestampVal → Option Int
  | .int n => some n
  | .str s => parseIntStr s

/-- `Calibration.__init__`: convert the timestamp, then build the metric
dictionary; any failure aborts the whole construction. -/
def Calibration.ofPayload {V : Type} (p : CalibrationPayload V) :
    Except CalError (Calibration V) :=
  match pyInt p.timestampMs with
  | none => .error .badTimestamp
  | some ts =>
    match compute_metric_dict p.metrics with
    | .ok d => .ok ⟨ts, d⟩
    | .error e => .error e

/-- A lookup key as handed to `__getitem__`: a string, or a value of any
other runtime type (kept opaque). -/
inductive Key where
  | str (s : String)
  | nonStr (tag : String)
deriving DecidableEq, Repr

/-- Errors raised by post-construction queries: `TypeError` for a non-string
key (`InvalidKeyKind`), `KeyError` for an absent name (`MetricNotFound`), and
the heatmap shape assertion (`HeatmapShapeError`). -/
inductive QueryError where
  | invalidKeyKind
  | metricNotFound (name : String)
  | heatmapShapeError
deriving DecidableEq, Repr

/-- `Calibration.__getitem__`: reject non-string keys first, then look the
name up, then return its bucket. -/
def Calibration.get {V : Type} (c : Calibration V) (k : Key) :
    Except QueryError (Bucket V) :=
  match k with
  | .nonStr _ => .error .invalidKeyKind
  | .str s =>
    match lookupA c.metric_dict s with
    | none => .error (.metricNotFound s)
    | some b => .ok b

/-- `Calibration.__iter__`: the metric names in insertion order. -/
def Calibration.keys {V : Type} (c : Calibration V) : List String :=
  c.metric_dict.map Prod.fst

/-- `Calibration.__len__`: the number of metric-name buckets. -/
def Calibration.size {V : Type} (c : Calibration V) : Nat :=
  c.metric_dict.length

/-- One step of the value-map comprehension of `heatmap`: a `([q], [v])`
entry becomes `(q, v)`; entries of any other shape are excluded by the
preceding asserts. -/
def entryToPoint {V : Type} : List GridQubit × List V → Option (GridQubit × V)
  | ([q], [v]) => some (q, v)
  | _ => none

/-- The value-map comprehension of `heatmap`. -/
def bucketToValueMap {V : Type} (b : Bucket V) : List (GridQubit × V) :=
  b.filterMap entryToPoint

/-- `Calibration.heatmap`: look the metric up via `__getitem__` (its errors
propagate), then assert every key tuple and every value list has length one,
then build the per-qubit value map. -/
def Calibration.heatmap {V : Type} (c : Calibration V) (k : Key) :
    Except QueryError (List (GridQubit × V)) :=
  match c.get k with
  | .error e => .error e
  | .ok b =>
    if b.all (fun kv => kv.1.length == 1) && b.all (fun kv => kv.2.length == 1)
    then .ok (bucketToValueMap b)
    else .error .heatmapShapeError

/-- Accessing entry `s` of the `defaultdict` underlying the metric
dictionary: a missing key inserts (and returns) an empty bucket. -/
def ddAccess {V : Type} (d : MetricDict V) (s : String) : Bucket V × MetricDict V :=
  match lookupA d s with
  | some b => (b, d)
  | none => ([], d ++ [(s, [])])

/-- State-passing version of `__getitem__`, making the potential
`defaultdict` mutation explicit: the code first tests membership with `in`
(which never inserts) and only indexes the dictionary when the key is
present. -/
def Calibration.getS {V : Type} (c : Calibration V) (k : Key) :
    Except QueryError (Bucket V) × Calibration V :=
  match k with
  | .nonStr _ => (.error .invalidKeyKind, c)
  | .str s =>
    if (lookupA c.metric_dict s).isSome then
      (.ok (ddAccess c.metric_dict s).1, { c with metric_dict := (ddAccess c.metric_dict s).2 })
    else (.error (.metricNotFound s), c)

/-- Folding get calls through the state-passing `__getitem__`: the
calibration left after an arbitrary finite sequence of lookups. -/
def runGets {V : Type} (c : Calibration V) (ks : List Key) : Calibration V :=
  ks.foldl (fun st k => (Calibration.getS st k).2) c

/-- First-occurrence deduplication of a list of names, in encounter order:
the reference order of `dict` key insertion. -/
def dedupFirst (l : List String) : List String :=
  l.foldl (fun acc n => if n ∈ acc then acc else acc ++ [n]) []

/-- Looking up a key right after assigning it returns the assigned value. -/
theorem lookupA_updA_self {α β : Type} [DecidableEq α] (l : List (α × β)) (a : α) (b : β) :
    lookupA (updA l a b) a = some b := by
  induction l with
  | nil => simp [updA, lookupA]
  | cons p rest ih =>
    obtain ⟨k, v⟩ := p
    by_cases h : k = a
    · subst h
      simp [updA, lookupA]
    · simp [updA, lookupA, h, ih]

/-- Two successive assignments to the same key collapse to the second. -/
theorem updA_updA_same {α β : Type} [DecidableEq α] (l : List (α × β)) (a : α) (b1 b2 : β) :
    updA (updA l a b1) a b2 = updA l a b2 := by
  induction l with
  | nil => simp [updA]
  | cons p rest ih =>
    obtain ⟨k, v⟩ := p
    by_cases h : k = a
    · subst h
      simp [updA]
    · simp [updA, h, ih]

/-- Two successive bucket-entry assignments under the same metric name and
qubit tuple collapse to the second: the earlier value list is overwritten. -/
theorem setMetric_setMetric_same {V : Type} (d : MetricDict V) (n : String)
    (k : List GridQubit) (v1 v2 : List V) :
    setMetric (setMetric d n k v1) n k v2 = setMetric d n k v2 := by
  induction d with
  | nil => simp [setMetric, updA]
  | cons p rest ih =>
    obtain ⟨n', b⟩ := p
    by_cases h : n' = n
    · subst h
      simp [setMetric, updA_updA_same]
    · simp [setMetric, h, ih]

/-- After `results[name][qubits] = v`, the bucket for `name` exists and its
entry at `qubits` is `v`. -/
theorem setMetric_lookup_self {V : Type} (d : MetricDict V) (n : String)
    (k : List GridQubit) (v : List V) :
    ∃ b, lookupA (setMetric d n k v) n = some b ∧ lookupA b k = some v := by
  induction d with
  | nil => exact ⟨[(k, v)], by simp [setMetric, lookupA], by simp [lookupA]⟩
  | cons p rest ih =>
    obtain ⟨n', b'⟩ := p
    by_cases h : n' = n
    · subst h
      exact ⟨updA b' k v, by simp [setMetric, lookupA], lookupA_updA_self b' k v⟩
    · obtain ⟨b, hb1, hb2⟩ := ih
      exact ⟨b, by simp [setMetric, lookupA, h, hb1], hb2⟩

/-- The parsing loop over an appended record list runs the first part and, if
it succeeds, continues with the second from the intermediate dictionary. -/
theorem computeFrom_append {V : Type} (d : MetricDict V) (l1 l2 : List (Metric V)) :
    computeFrom d (l1 ++ l2) =
      match computeFrom d l1 with
      | .ok d' => computeFrom d' l2
      | .error e => .error e := by
  induction l1 generalizing d with
  | nil => simp [computeFrom]
  | cons m rest ih =>
    simp only [List.cons_append, computeFrom]
    cases hm : insertMetric d m with
    | ok d' => simp [ih]
    | error e => rfl

/-- Inversion for the heatmap comprehension step: an entry projects to a
point exactly when it is a singleton key with a singleton value list. -/
theorem entryToPoint_eq_some {V : Type} (kv : List GridQubit × List V) (q : GridQubit) (v : V) :
    entryToPoint kv = some (q, v) ↔ kv = ([q], [v]) := by
  obtain ⟨ks, vs⟩ := kv
  rcases ks with _ | ⟨q1, _ | ⟨q2, ks⟩⟩ <;> rcases vs with _ | ⟨v1, _ | ⟨v2, vs⟩⟩ <;>
    simp [entryToPoint]

/-- Membership in the heatmap value map is membership of the corresponding
singleton-shaped entry in the bucket. -/
theorem bucketToValueMap_mem {V : Type} (b : Bucket V) (q : GridQubit) (v : V) :
    (q, v) ∈ bucketToValueMap b ↔ ([q], [v]) ∈ b := by
  simp [bucketToValueMap, List.mem_filterMap, entryToPoint_eq_some]

/-- The boolean conjunction of the two heatmap asserts holds exactly when
every bucket entry is singleton-keyed and singleton-valued. -/
theorem heatmap_cond_iff {V : Type} (b : Bucket V) :
    (((b.all fun kv => kv.1.length == 1) && b.all fun kv => kv.2.length == 1) = true) ↔
      ∀ kv ∈ b, kv.1.length = 1 ∧ kv.2.length = 1 := by
  simp only [Bool.and_eq_true, List.all_eq_true, beq_iff_eq]
  exact ⟨fun h kv hm => ⟨h.1 kv hm, h.2 kv hm⟩,
    fun h => ⟨fun kv hm => (h kv hm).1, fun kv hm => (h kv hm).2⟩⟩

/-- State-passing `__getitem__` never changes the calibration: the membership
test uses `in` (no default insertion) and indexing happens only on hit. -/
theorem getS_state_eq {V : Type} (c : Calibration V) (k : Key) : (c.getS k).2 = c := by
  cases k with
  | nonStr t => rfl
  | str s =>
    cases hl : lookupA c.metric_dict s with
    | none => simp [Calibration.getS, hl]
    | some b => simp [Calibration.getS, hl, ddAccess]

/-- State-passing `__getitem__` returns exactly what the pure `get` does. -/
theorem getS_fst_eq {V : Type} (c : Calibration V) (k : Key) : (c.getS k).1 = c.get k := by
  cases k with
  | nonStr t => rfl
  | str s =>
    cases hl : lookupA c.metric_dict s with
    | none => simp [Calibration.getS, Calibration.get, hl]
    | some b => simp [Calibration.getS, Calibration.get, hl, ddAccess]

/-- Any finite sequence of lookups leaves the calibration unchanged. -/
theorem runGets_eq {V : Type} (c : Calibration V) (ks : List Key) : runGets c ks = c := by
  induction ks generalizing c with
  | nil => rfl
  | cons k rest ih =>
    simp only [runGets, List.foldl_cons]
    rw [getS_state_eq c k]
    exact ih c

/-- C4: `__getitem__` raises `InvalidKeyKind` (`TypeError`) for every
non-string key before any membership test, raises `MetricNotFound`
(`KeyError`) for a string key with no bucket, and returns the bucket for a
string key that has one. -/
theorem getitem_spec {V : Type} (c : Calibration V) :
    (∀ t, c.get (.nonStr t) = .error .invalidKeyKind) ∧
    (∀ s, lookupA c.metric_dict s = none → c.get (.str s) = .error (.metricNotFound s)) ∧
    (∀ s b, lookupA c.metric_dict s = some b → c.get (.str s) = .ok b) := by
  refine ⟨fun t => rfl, fun s h => ?_, fun s b h => ?_⟩ <;> simp [Calibration.get, h]

/-- Witness for `getitem_spec` on a concrete one-metric calibration. -/
theorem getitem_spec_witness :
    ((Calibration.mk 7 [("x", [([], [5])])] : Calibration Int).get (.nonStr "dict") =
        .error .invalidKeyKind) ∧
    ((Calibration.mk 7 [("x", [([], [5])])] : Calibration Int).get (.str "y") =
        .error (.metricNotFound "y")) ∧
    ((Calibration.mk 7 [("x", [([], [5])])] : Calibration Int).get (.str "x") =
        .ok [([], [5])]) := by
  obtain ⟨h1, h2, h3⟩ := getitem_spec (Calibration.mk 7 [("x", [([], [(5 : Int)])])])
  exact ⟨h1 "dict", h2 "y" (by decide), h3 "x" _ (by decide)⟩

/-- C10: `heatmap` propagates the lookup errors of `__getitem__` unchanged —
`InvalidKeyKind` for a non-string key, `MetricNotFound` for an absent string
name — and the shape asserts run only after the lookup has succeeded. -/
theorem heatmap_propagates_lookup_errors {V : Type} (c : Calibration V) :
    (∀ t, c.heatmap (.nonStr t) = .error .invalidKeyKind) ∧
    (∀ s, lookupA c.metric_dict s = none →
      c.heatmap (.str s) = .error (.metricNotFound s)) ∧
    (∀ k e, c.get k = .error e → c.heatmap k = .error e) := by
  refine ⟨fun t => rfl, fun s h => ?_, fun k e h => ?_⟩
  · simp [Calibration.heatmap, Calibration.get, h]
  · simp [Calibration.heatmap, h]

/-- Witness for `heatmap_propagates_lookup_errors` on a concrete
calibration. -/
theorem heatmap_propagates_lookup_errors_witness :
    ((Calibration.mk 7 [("x", [([], [5])])] : Calibration Int).heatmap (.nonStr "dict") =
        .error .invalidKeyKind) ∧
    ((Calibration.mk 7 [("x", [([], [5])])] : Calibration Int).heatmap (.str "y") =
        .error (.metricNotFound "y")) ∧
    ((Calibration.mk 7 [("x", [([], [5])])] : Calibration Int).heatmap (.str "z") =
        .error (.metricNotFound "z")) := by
  obtain ⟨h1, h2, h3⟩ :=
    heatmap_propagates_lookup_errors (Calibration.mk 7 [("x", [([], [(5 : Int)])])])
  exact ⟨h1 "dict", h2 "y" (by decide), h3 (.str "z") _ (by decide)⟩

/-- C8: queries are effect-free — the state-passing `__getitem__` leaves the
calibration unchanged (failed lookups insert no empty bucket into the
default-dictionary), any finite sequence of get calls leaves the metric
dictionary and timestamp intact, repeated calls agree with the pure `get`,
and iteration reads the untouched key list. -/
theorem queries_pure {V : Type} (c : Calibration V) :
    (∀ k, (c.getS k).2 = c ∧ (c.getS k).1 = c.get k) ∧
    (∀ ks, runGets c ks = c) ∧
    (∀ k, ((c.getS k).2).getS k = c.getS k) ∧
    (∀ ks, (runGets c ks).keys = c.keys ∧ (runGets c ks).timestamp = c.timestamp) := by
  refine ⟨fun k => ⟨getS_state_eq c k, getS_fst_eq c k⟩, fun ks => runGets_eq c ks,
    fun k => by rw [getS_state_eq c k], fun ks => by rw [runGets_eq c ks]; exact ⟨rfl, rfl⟩⟩

/-- Witness for `queries_pure`: on a concrete calibration, a hit, a miss and
a non-string lookup all leave the state equal to the original. -/
theorem queries_pure_witness :
    runGets (Calibration.mk 7 [("x", [([], [(5 : Int)])])])
        [.str "x", .str "absent", .nonStr "dict"] =
      Calibration.mk 7 [("x", [([], [5])])] ∧
    ((Calibration.mk 7 [("x", [([], [(5 : Int)])])]).getS (.str "absent")).2 =
      Calibration.mk 7 [("x", [([], [5])])] := by
  have h := queries_pure (Calibration.mk 7 [("x", [([], [(5 : Int)])])])
  exact ⟨h.2.1 [.str "x", .str "absent", .nonStr "dict"], (h.1 (.str "absent")).1⟩

/-- C6: the round-trip payload — string timestamp `"1000"`, one record named
`t1` with tagged value `{"double_val": 321}` and target `"q0_0"` — builds a
calibration whose timestamp is the integer 1000, whose `get "t1"` is the
single-entry bucket from `(GridQubit 0 0,)` to `[321]`, and whose
`heatmap "t1"` is the per-qubit map sending `GridQubit 0 0` to `321`. -/
theorem round_trip_scenario :
    Calibration.ofPayload
        (CalibrationPayload.mk (.str "1000")
          [Metric.mk "t1" [[("double_val", (321 : Int))]] (some ["q0_0"])]) =
      .ok (Calibration.mk 1000 [("t1", [([GridQubit.mk 0 0], [321])])]) ∧
    (Calibration.mk 1000 [("t1", [([GridQubit.mk 0 0], [(321 : Int)])])]).get (.str "t1") =
      .ok [([GridQubit.mk 0 0], [321])] ∧
    (Calibration.mk 1000 [("t1", [([GridQubit.mk 0 0], [(321 : Int)])])]).heatmap (.str "t1") =
      .ok [(GridQubit.mk 0 0, 321)] ∧
    (Calibration.mk 1000 [("t1", [([GridQubit.mk 0 0], [(321 : Int)])])]).timestamp = 1000 := by
  exact ⟨by decide, by decide, by decide, rfl⟩

/-- C3: for a metric present in the calibration, `heatmap` succeeds exactly
when every qubit-tuple key of its bucket has one element and every value
list has one element, returning the map that sends each sole qubit to its
sole value; in every other shape — a global empty-tuple key included — it
raises `HeatmapShapeError`.  `heatmap` is a pure function of the
calibration, so the calibration is untouched and remains valid for further
queries. -/
theorem heatmap_shape_spec {V : Type} (c : Calibration V) (s : String) (b : Bucket V)
    (h : lookupA c.metric_dict s = some b) :
    ((∀ kv ∈ b, kv.1.length = 1 ∧ kv.2.length = 1) →
      c.heatmap (.str s) = .ok (bucketToValueMap b)) ∧
    ((¬ ∀ kv ∈ b, kv.1.length = 1 ∧ kv.2.length = 1) →
      c.heatmap (.str s) = .error .heatmapShapeError) ∧
    (∀ q v, (q, v) ∈ bucketToValueMap b ↔ ([q], [v]) ∈ b) := by
  have hget : c.get (.str s) = .ok b := by simp [Calibration.get, h]
  refine ⟨fun hP => ?_, fun hP => ?_, fun q v => bucketToValueMap_mem b q v⟩
  · have hc := (heatmap_cond_iff b).mpr hP
    simp [Calibration.heatmap, hget, hc]
  · have hc : ¬ (((b.all fun kv => kv.1.length == 1) &&
        b.all fun kv => kv.2.length == 1) = true) := fun hcc => hP ((heatmap_cond_iff b).mp hcc)
    rw [Bool.not_eq_true] at hc
    simp [Calibration.heatmap, hget, hc]

/-- Witness for `heatmap_shape_spec`: a single-qubit single-value metric
projects, and a global metric raises the shape error. -/
theorem heatmap_shape_spec_witness :
    (Calibration.mk 0 [("m", [([GridQubit.mk 1 2], [(3 : Int)])])]).heatmap (.str "m") =
      .ok [(GridQubit.mk 1 2, 3)] ∧
    (Calibration.mk 0 [("g", [([], [(4 : Int)])])]).heatmap (.str "g") =
      .error .heatmapShapeError := by
  constructor
  · have h := heatmap_shape_spec (Calibration.mk 0 [("m", [([GridQubit.mk 1 2], [(3 : Int)])])])
      "m" [([GridQubit.mk 1 2], [3])] (by decide)
    rw [h.1 (by decide)]
    decide
  · have h := heatmap_shape_spec (Calibration.mk 0 [("g", [([], [(4 : Int)])])])
      "g" [([], [4])] (by decide)
    exact h.2.1 (by decide)

/-- Flattening one-key tagged values yields exactly the scalars in order. -/
theorem flatValues_singletons {V : Type} (l : List (String × V)) :
    flatValues (l.map fun p => [p]) = l.map Prod.snd := by
  induction l with
  | nil => rfl
  | cons p rest ih => simp [flatValues] at ih ⊢; exact ih

/-- A successful target parse is the elementwise parse of each target string
in the targets' original order. -/
theorem parseTargets_ok_map (ts : List String) (qs : List GridQubit)
    (h : parseTargets ts = .ok qs) : ts.map parseTarget = qs.map some := by
  induction ts generalizing qs with
  | nil =>
    simp [parseTargets] at h
    subst h
    rfl
  | cons t rest ih =>
    rw [parseTargets] at h
    cases hp : parseTarget t with
    | none => rw [hp] at h; exact absurd h (by simp)
    | some q =>
      rw [hp] at h
      cases hr : parseTargets rest with
      | error e => rw [hr] at h; exact absurd h (by simp [Except.map])
      | ok qs' =>
        rw [hr] at h
        simp only [Except.map, Except.ok.injEq] at h
        subst h
        simp [hp, ih qs' hr]

/-- C5: a record with a `targets` field whose values are one-key tagged
scalars is stored under its name at the key obtained by parsing each target
string in the targets' original order (after the leading-`q` strip inside
`parseTarget`), and the stored value list is the record's scalars in their
original order with every type tag discarded. -/
theorem targeted_record_stored {V : Type} (d : MetricDict V) (m : Metric V)
    (ts : List String) (qs : List GridQubit) (l : List (String × V))
    (hts : m.targets = some ts)
    (hvals : m.values = l.map (fun p => [p]))
    (hp : parseTargets ts = .ok qs) :
    ts.map parseTarget = qs.map some ∧
    flatValues m.values = l.map Prod.snd ∧
    insertMetric d m = .ok (setMetric d m.name qs (l.map Prod.snd)) ∧
    ∃ b, lookupA (setMetric d m.name qs (l.map Prod.snd)) m.name = some b ∧
      lookupA b qs = some (l.map Prod.snd) := by
  have hfv : flatValues m.values = l.map Prod.snd := by
    rw [hvals]; exact flatValues_singletons l
  refine ⟨parseTargets_ok_map ts qs hp, hfv, ?_,
    setMetric_lookup_self d m.name qs (l.map Prod.snd)⟩
  simp [insertMetric, hts, hp, hfv]

/-- Witness for `targeted_record_stored` on a concrete two-target record. -/
theorem targeted_record_stored_witness :
    insertMetric [] (Metric.mk "xeb" [[("double_val", (7 : Int))], [("double_val", 9)]]
        (some ["q0_0", "1_2"])) =
      .ok [("xeb", [([GridQubit.mk 0 0, GridQubit.mk 1 2], [7, 9])])] := by
  have h := targeted_record_stored ([] : MetricDict Int)
    (Metric.mk "xeb" [[("double_val", (7 : Int))], [("double_val", 9)]] (some ["q0_0", "1_2"]))
    ["q0_0", "1_2"] [GridQubit.mk 0 0, GridQubit.mk 1 2]
    [("double_val", 7), ("double_val", 9)] rfl rfl (by decide)
  rw [h.2.2.1]
  decide

/-- Unfolding of the parsing entry point to the loop form. -/
theorem compute_metric_dict_eq {V : Type} (ms : List (Metric V)) :
    compute_metric_dict ms = computeFrom [] ms := rfl

/-- Specialization of `computeFrom_append` when the first part succeeds. -/
theorem computeFrom_append_ok {V : Type} (d d1 : MetricDict V) (l1 l2 : List (Metric V))
    (h : computeFrom d l1 = .ok d1) :
    computeFrom d (l1 ++ l2) = computeFrom d1 l2 := by
  rw [computeFrom_append, h]

/-- Specialization of `computeFrom_append` when the first part fails. -/
theorem computeFrom_append_err {V : Type} (d : MetricDict V) (l1 l2 : List (Metric V))
    (e : CalError) (h : computeFrom d l1 = .error e) :
    computeFrom d (l1 ++ l2) = .error e := by
  rw [computeFrom_append, h]

/-- C9: two records sharing one name whose `targets` parse to the identical
qubit tuple are both accepted — no error is raised — and the later record's
flattened values silently overwrite the earlier record's: processing both
yields the same dictionary as processing only the later one, inside any
successfully parsed payload prefix, and the shared bucket entry ends up
holding exactly the later value list. -/
theorem duplicate_target_overwrite {V : Type} (d : MetricDict V) (m1 m2 : Metric V)
    (ts1 ts2 : List String) (qs : List GridQubit)
    (hn : m2.name = m1.name)
    (h1 : m1.targets = some ts1) (h2 : m2.targets = some ts2)
    (hp1 : parseTargets ts1 = .ok qs) (hp2 : parseTargets ts2 = .ok qs) :
    computeFrom d [m1, m2] = .ok (setMetric d m1.name qs (flatValues m2.values)) ∧
    (∀ pre, compute_metric_dict pre = .ok d →
      compute_metric_dict (pre ++ [m1, m2]) =
        .ok (setMetric d m1.name qs (flatValues m2.values))) ∧
    ∃ b, lookupA (setMetric d m1.name qs (flatValues m2.values)) m1.name = some b ∧
      lookupA b qs = some (flatValues m2.values) := by
  have i1 : insertMetric d m1 = .ok (setMetric d m1.name qs (flatValues m1.values)) := by
    simp [insertMetric, h1, hp1]
  have i2 : insertMetric (setMetric d m1.name qs (flatValues m1.values)) m2 =
      .ok (setMetric d m1.name qs (flatValues m2.values)) := by
    simp [insertMetric, h2, hp2, hn, setMetric_setMetric_same]
  have hcf : computeFrom d [m1, m2] = .ok (setMetric d m1.name qs (flatValues m2.values)) := by
    simp [computeFrom, i1, i2]
  refine ⟨hcf, fun pre hpre => ?_, setMetric_lookup_self d m1.name qs (flatValues m2.values)⟩
  rw [compute_metric_dict_eq] at hpre ⊢
  rw [computeFrom_append_ok [] d pre [m1, m2] hpre]
  exact hcf

/-- Witness for `duplicate_target_overwrite`: two `t1` records targeting
`q0_0`; the bucket keeps only the later value list `[9]`. -/
theorem duplicate_target_overwrite_witness :
    computeFrom [] [Metric.mk "t1" [[("double_val", (7 : Int))]] (some ["q0_0"]),
        Metric.mk "t1" [[("double_val", 9)]] (some ["0_0"])] =
      .ok [("t1", [([GridQubit.mk 0 0], [9])])] := by
  have h := duplicate_target_overwrite ([] : MetricDict Int)
    (Metric.mk "t1" [[("double_val", (7 : Int))]] (some ["q0_0"]))
    (Metric.mk "t1" [[("double_val", 9)]] (some ["0_0"]))
    ["q0_0"] ["0_0"] [GridQubit.mk 0 0] rfl rfl rfl (by decide) (by decide)
  rw [h.1]
  decide

/-- C2: a record without a `targets` field processed while the bucket for its
name already holds any entry aborts construction with
`DuplicateGlobalMetric`, and no calibration value is produced from such a
payload. -/
theorem duplicate_global_fails {V : Type} (pre post : List (Metric V)) (m : Metric V)
    (d : MetricDict V) (b : Bucket V)
    (hm : m.targets = none)
    (hpre : compute_metric_dict pre = .ok d)
    (hb : lookupA d m.name = some b) (hne : b ≠ []) :
    compute_metric_dict (pre ++ m :: post) = .error (.duplicateGlobalMetric m.name) ∧
    ∀ (ts : TimestampVal) (c : Calibration V),
      Calibration.ofPayload ⟨ts, pre ++ m :: post⟩ ≠ .ok c := by
  have hbe : b.isEmpty = false := by
    cases b with
    | nil => exact absurd rfl hne
    | cons x xs => rfl
  have hins : insertMetric d m = .error (.duplicateGlobalMetric m.name) := by
    simp [insertMetric, hm, hb, hbe]
  have hcomp : compute_metric_dict (pre ++ m :: post) =
      .error (.duplicateGlobalMetric m.name) := by
    rw [compute_metric_dict_eq] at hpre ⊢
    rw [computeFrom_append_ok [] d pre (m :: post) hpre]
    simp [computeFrom, hins]
  refine ⟨hcomp, fun ts c => ?_⟩
  cases hpy : pyInt ts with
  | none => simp [Calibration.ofPayload, hpy]
  | some n => simp [Calibration.ofPayload, hpy, hcomp]

/-- Witness for `duplicate_global_fails`: two target-less `a` records. -/
theorem duplicate_global_fails_witness :
    compute_metric_dict [Metric.mk "a" [[("double_val", (1 : Int))]] none,
        Metric.mk "a" [[("double_val", 2)]] none] =
      .error (.duplicateGlobalMetric "a") ∧
    Calibration.ofPayload
        (CalibrationPayload.mk (.int 0)
          [Metric.mk "a" [[("double_val", (1 : Int))]] none,
           Metric.mk "a" [[("double_val", 2)]] none]) ≠
      .ok (Calibration.mk 0 [("a", [([], [1]), ([], [2])])]) := by
  have h := duplicate_global_fails [Metric.mk "a" [[("double_val", (1 : Int))]] none]
    [] (Metric.mk "a" [[("double_val", 2)]] none) [("a", [([], [1])])] [([], [1])]
    rfl (by decide) (by decide) (by decide)
  exact ⟨h.1, h.2 (.int 0) (Calibration.mk 0 [("a", [([], [1]), ([], [2])])])⟩

/-- Counterexample to the claim that a successfully constructed bucket with a
global (empty-tuple) entry contains no other key: a global `a` record
followed by a targeted `a` record builds fine, and the `a` bucket holds both
the empty tuple and a one-qubit key. -/
theorem mixed_global_targeted_accepted :
    Calibration.ofPayload
        (CalibrationPayload.mk (.int 0)
          [Metric.mk "a" [[("double_val", (1 : Int))]] none,
           Metric.mk "a" [[("double_val", 2)]] (some ["q0_0"])]) =
      .ok (Calibration.mk 0 [("a", [([], [1]), ([GridQubit.mk 0 0], [2])])]) ∧
    lookupA [("a", [([], [(1 : Int)]), ([GridQubit.mk 0 0], [2])])] "a" =
      some [([], [1]), ([GridQubit.mk 0 0], [2])] ∧
    (([], [(1 : Int)]) ∈ [([], [(1 : Int)]), ([GridQubit.mk 0 0], [2])]) ∧
    (([GridQubit.mk 0 0], [(2 : Int)]) ∈ [([], [(1 : Int)]), ([GridQubit.mk 0 0], [2])]) ∧
    ([GridQubit.mk 0 0] : List GridQubit) ≠ [] := by
  refine ⟨by decide, by decide, by decide, by decide, by decide⟩

/-- Amended C1: the only protection the parser gives the empty-tuple key is
at insertion time — a record without `targets` is accepted exactly when its
name's bucket is still empty (so it is the first record of that name, and at
most one global record per name exists); targeted records processed later,
or records carrying an empty `targets` list, may still add keys next to the
global entry. -/
theorem global_record_requires_empty_bucket {V : Type} (pre post : List (Metric V))
    (m : Metric V) (d' : MetricDict V)
    (hm : m.targets = none)
    (hok : compute_metric_dict (pre ++ m :: post) = .ok d') :
    ∃ dpre, compute_metric_dict pre = .ok dpre ∧
      (lookupA dpre m.name = none ∨ lookupA dpre m.name = some []) := by
  rw [compute_metric_dict_eq] at hok
  cases hpre : computeFrom [] pre with
  | error e =>
    rw [computeFrom_append_err [] pre (m :: post) e hpre] at hok
    exact absurd hok (by simp)
  | ok dpre =>
    rw [computeFrom_append_ok [] dpre pre (m :: post) hpre] at hok
    refine ⟨dpre, hpre, ?_⟩
    cases hl : lookupA dpre m.name with
    | none => exact Or.inl rfl
    | some b =>
      cases hbe : b.isEmpty with
      | true =>
        rw [List.isEmpty_iff] at hbe
        exact Or.inr (by rw [hbe])
      | false =>
        exfalso
        have hins : insertMetric dpre m = .error (.duplicateGlobalMetric m.name) := by
          simp [insertMetric, hm, hl, hbe]
        rw [computeFrom, hins] at hok
        exact absurd hok (by simp)

/-- Witness for `global_record_requires_empty_bucket` on the mixed payload:
the global `a` record is first, so its bucket was empty beforehand. -/
theorem global_record_requires_empty_bucket_witness :
    ∃ dpre, compute_metric_dict ([] : List (Metric Int)) = .ok dpre ∧
      (lookupA dpre "a" = none ∨ lookupA dpre "a" = some []) := by
  have h := global_record_requires_empty_bucket ([] : List (Metric Int))
    [Metric.mk "a" [[("double_val", (2 : Int))]] (some ["q0_0"])]
    (Metric.mk "a" [[("double_val", (1 : Int))]] none)
    [("a", [([], [1]), ([GridQubit.mk 0 0], [2])])] rfl (by decide)
  exact h

/-- Bucket assignment appends the metric name to the key list exactly when
the name is new, and otherwise keeps the key list unchanged. -/
theorem keys_setMetric {V : Type} (d : MetricDict V) (n : String) (k : List GridQubit)
    (v : List V) :
    (setMetric d n k v).map Prod.fst =
      if n ∈ d.map Prod.fst then d.map Prod.fst else d.map Prod.fst ++ [n] := by
  induction d with
  | nil => simp [setMetric]
  | cons p rest ih =>
    obtain ⟨n', b⟩ := p
    by_cases h : n' = n
    · subst h
      simp [setMetric]
    · have h' : ¬ (n = n') := fun hh => h hh.symm
      by_cases hc : n ∈ rest.map Prod.fst <;> simp [setMetric, h, h', hc, ih]

/-- One parser step extends the key list by the record's name when new. -/
theorem insertMetric_keys {V : Type} (d d' : MetricDict V) (m : Metric V)
    (h : insertMetric d m = .ok d') :
    d'.map Prod.fst =
      if m.name ∈ d.map Prod.fst then d.map Prod.fst else d.map Prod.fst ++ [m.name] := by
  cases ht : m.targets with
  | some ts =>
    cases hp : parseTargets ts with
    | ok qs =>
      simp only [insertMetric, ht, hp, Except.ok.injEq] at h
      rw [← h, keys_setMetric]
    | error e => simp [insertMetric, ht, hp] at h
  | none =>
    cases hl : lookupA d m.name with
    | some b =>
      cases b with
      | nil =>
        simp only [insertMetric, ht, hl, List.isEmpty_nil, if_true, Except.ok.injEq] at h
        rw [← h, keys_setMetric]
      | cons x xs => simp [insertMetric, ht, hl] at h
    | none =>
      simp only [insertMetric, ht, hl, Except.ok.injEq] at h
      rw [← h, keys_setMetric]

/-- The key list of a successful parse is the first-occurrence fold of the
record names over the starting key list. -/
theorem computeFrom_keys {V : Type} (d d' : MetricDict V) (ms : List (Metric V))
    (h : computeFrom d ms = .ok d') :
    d'.map Prod.fst =
      ms.foldl (fun acc m => if m.name ∈ acc then acc else acc ++ [m.name])
        (d.map Prod.fst) := by
  induction ms generalizing d with
  | nil =>
    simp only [computeFrom, Except.ok.injEq] at h
    rw [← h]
    rfl
  | cons m rest ih =>
    cases hi : insertMetric d m with
    | error e => simp [computeFrom, hi] at h
    | ok d1 =>
      simp only [computeFrom, hi] at h
      have hk := insertMetric_keys d d1 m hi
      simp only [List.foldl_cons]
      rw [← hk]
      exact ih d1 h

/-- The first-occurrence fold keeps the accumulator duplicate-free. -/
theorem foldl_dedup_nodup (l : List String) : ∀ acc : List String, acc.Nodup →
    (l.foldl (fun acc n => if n ∈ acc then acc else acc ++ [n]) acc).Nodup := by
  induction l with
  | nil => exact fun acc h => h
  | cons n rest ih =>
    intro acc hacc
    simp only [List.foldl_cons]
    by_cases h : n ∈ acc
    · rw [if_pos h]
      exact ih acc hacc
    · rw [if_neg h]
      exact ih (acc ++ [n]) (by simp [List.nodup_append, hacc, h])

/-- Membership after the first-occurrence fold: an element is in the result
exactly when it was in the accumulator or in the folded list. -/
theorem foldl_dedup_mem (l : List String) : ∀ (acc : List String) (x : String),
    (x ∈ l.foldl (fun acc n => if n ∈ acc then acc else acc ++ [n]) acc ↔
      x ∈ acc ∨ x ∈ l) := by
  induction l with
  | nil => simp
  | cons n rest ih =>
    intro acc x
    simp only [List.foldl_cons]
    by_cases h : n ∈ acc
    · rw [if_pos h, ih]
      constructor
      · rintro (h1 | h2)
        · exact Or.inl h1
        · exact Or.inr (List.mem_cons_of_mem n h2)
      · rintro (h1 | h2)
        · exact Or.inl h1
        · rcases List.mem_cons.mp h2 with h3 | h4
          · exact Or.inl (h3 ▸ h)
          · exact Or.inr h4
    · rw [if_neg h, ih]
      simp only [List.mem_append, List.mem_singleton, List.mem_cons]
      tauto

/-- First-occurrence deduplication keeps exactly the members of the list. -/
theorem mem_dedupFirst (l : List String) (x : String) : x ∈ dedupFirst l ↔ x ∈ l := by
  rw [dedupFirst, foldl_dedup_mem]
  simp

/-- C7: iterating a successfully constructed calibration yields each distinct
metric name exactly once, in the order the names were first encountered
while parsing the records, and the size is the number of distinct names.
Iteration is a pure read of the key list, so every traversal returns the
same fresh list. -/
theorem iteration_spec {V : Type} (p : CalibrationPayload V) (c : Calibration V)
    (h : Calibration.ofPayload p = .ok c) :
    c.keys = dedupFirst (p.metrics.map Metric.name) ∧
    c.keys.Nodup ∧
    c.size = c.keys.length ∧
    (∀ n, n ∈ c.keys ↔ n ∈ p.metrics.map Metric.name) := by
  have hcm : compute_metric_dict p.metrics = .ok c.metric_dict := by
    cases hpy : pyInt p.timestampMs with
    | none => simp [Calibration.ofPayload, hpy] at h
    | some n =>
      cases hc2 : compute_metric_dict p.metrics with
      | error e => simp [Calibration.ofPayload, hpy, hc2] at h
      | ok d =>
        simp only [Calibration.ofPayload, hpy, hc2, Except.ok.injEq] at h
        rw [← h]
  have hkeys : c.keys = dedupFirst (p.metrics.map Metric.name) := by
    have hk := computeFrom_keys [] c.metric_dict p.metrics hcm
    rw [Calibration.keys, hk, dedupFirst, List.foldl_map]
    rfl
  refine ⟨hkeys, ?_, ?_, fun n => ?_⟩
  · rw [hkeys, dedupFirst]
    exact foldl_dedup_nodup (p.metrics.map Metric.name) [] List.nodup_nil
  · rw [Calibration.size, Calibration.keys, List.length_map]
  · rw [hkeys, mem_dedupFirst]

/-- Witness for `iteration_spec`: three records with names `a`, `b`, `a`
yield the key list `["a", "b"]`. -/
theorem iteration_spec_witness :
    (Calibration.mk 5
        [("a", [([GridQubit.mk 0 0], [(1 : Int)]), ([GridQubit.mk 1 0], [3])]),
         ("b", [([GridQubit.mk 0 1], [2])])]).keys =
      dedupFirst ([Metric.mk "a" [[("v", (1 : Int))]] (some ["q0_0"]),
        Metric.mk "b" [[("v", 2)]] (some ["q0_1"]),
        Metric.mk "a" [[("v", 3)]] (some ["q1_0"])].map Metric.name) ∧
    (Calibration.mk 5
        [("a", [([GridQubit.mk 0 0], [(1 : Int)]), ([GridQubit.mk 1 0], [3])]),
         ("b", [([GridQubit.mk 0 1], [2])])]).keys.Nodup ∧
    (Calibration.mk 5
        [("a", [([GridQubit.mk 0 0], [(1 : Int)]), ([GridQubit.mk 1 0], [3])]),
         ("b", [([GridQubit.mk 0 1], [2])])]).size = 2 := by
  have h := iteration_spec
    (CalibrationPayload.mk (.int 5)
      [Metric.mk "a" [[("v", (1 : Int))]] (some ["q0_0"]),
       Metric.mk "b" [[("v", 2)]] (some ["q0_1"]),
       Metric.mk "a" [[("v", 3)]] (some ["q1_0"])])
    (Calibration.mk 5
      [("a", [([GridQubit.mk 0 0], [(1 : Int)]), ([GridQubit.mk 1 0], [3])]),
       ("b", [([GridQubit.mk 0 1], [2])])])
    (by decide)
  exact ⟨h.1, h.2.1, by rw [h.2.2.1]; decide⟩

end Calib
